import Mathlib

/-!
Shallow embedding of the turn-based battle engine of `naruto_battle_system`:
the character model with its clamped mutators (`models/character.py`), the
status-effect round tick, attack/skill resolution, battle-over and winner
queries, and the per-round turn-order computation
(`controllers/battle_controller.py`).  Integers are modelled by `Int`
(Python integers are unbounded and signed); Python's floor division `//`
is `Int.fdiv`.
-/

namespace Naruto

/-- `StatusEffectType` from `models/enums.py`. -/
inductive StatusEffectType where
  | BUFF_ATK | BUFF_DEF | BUFF_SPD
  | DEBUFF_ATK | DEBUFF_DEF | DEBUFF_SPD
  | STUN | FREEZE | DOT | HOT | SHIELD | REFLECT | IMMUNITY
deriving DecidableEq, Repr

/-- The fields of `StatusEffect` (`models/status_effect.py`) used by the
battle controller: effect kind, magnitude and remaining duration. -/
structure StatusEffect where
  name : String
  effect_type : StatusEffectType
  value : Int
  duration : Int
deriving DecidableEq, Repr

/-- The fields of `Character` (`models/character.py`) read or written by the
battle engine.  `hp` mirrors `current_hp` through `take_damage`/`heal`
(`self.hp = self.current_hp`), but the round tick writes `hp` alone. -/
structure Character where
  name : String
  hp : Int
  max_hp : Int
  chakra : Int
  max_chakra : Int
  attack : Int
  defense : Int
  speed : Int
  is_alive : Bool
  chakra_regen : Int
  current_hp : Int
  status_effects : List StatusEffect
deriving DecidableEq, Repr

/-- `Character.take_damage` (`models/character.py` lines 106-128): a dead
character takes no damage; otherwise the damage is clamped to the current
hp, and reaching 0 marks the character dead. -/
def Character.take_damage (c : Character) (amount : Int) : Int × Character :=
  if !c.is_alive then (0, c)
  else
    let actual_damage := min c.current_hp amount
    let new_hp := c.current_hp - actual_damage
    if new_hp ≤ 0 then
      (actual_damage, { c with current_hp := 0, hp := 0, is_alive := false })
    else
      (actual_damage, { c with current_hp := new_hp, hp := new_hp })

/-- `Character.heal` (`models/character.py` lines 130-146): a dead character
receives no healing; otherwise hp rises, clamped at `max_hp`. -/
def Character.heal (c : Character) (amount : Int) : Int × Character :=
  if !c.is_alive then (0, c)
  else
    let old_hp := c.current_hp
    let new_hp := min c.max_hp (c.current_hp + amount)
    (new_hp - old_hp, { c with current_hp := new_hp, hp := new_hp })

/-- `BattleTeam` (`models/battle_team.py`), the fields the controller uses. -/
structure BattleTeam where
  name : String
  player_id : String
  characters : List Character
deriving DecidableEq, Repr

/-- `BattleState` (`models/battle_state.py`), the fields the controller uses. -/
structure BattleState where
  team_a : BattleTeam
  team_b : BattleTeam
  current_round : Int
  turn_order : List Character
  current_character_index : Int
deriving DecidableEq, Repr

/-- The in-place duration decrement at the top of the effect loop in
`BattleController._process_turn_based_effects`:
`if effect.duration > 0: effect.duration -= 1`. -/
def decayEffect (e : StatusEffect) : StatusEffect :=
  if e.duration > 0 then { e with duration := e.duration - 1 } else e

/-- One effect application to the character's `hp` field in
`_process_turn_based_effects`: DOT subtracts clamped at 0, HOT adds clamped
at `max_hp`, every other kind leaves hp unchanged. -/
def applyEffectHp (max_hp : Int) (hp : Int) (e : StatusEffect) : Int :=
  match e.effect_type with
  | StatusEffectType.DOT => max 0 (hp - e.value)
  | StatusEffectType.HOT => min max_hp (hp + e.value)
  | _ => hp

/-- `BattleController._process_turn_based_effects` (lines 91-122): decrement
each effect's duration, apply DOT/HOT to `hp`, then drop every effect whose
duration reached exactly 0.  Note the source writes `character.hp` directly
and never touches `current_hp` or `is_alive` here. -/
def processTurnBasedEffects (c : Character) : Character :=
  let decayed := c.status_effects.map decayEffect
  { c with hp := decayed.foldl (applyEffectHp c.max_hp) c.hp,
           status_effects := decayed.filter (fun e => e.duration != 0) }

/-- The chakra-regeneration step of `BattleController._prepare_new_round`
(line 61): `character.chakra = min(character.chakra + character.chakra_regen,
character.max_chakra)`. -/
def regenChakra (c : Character) : Character :=
  { c with chakra := min (c.chakra + c.chakra_regen) c.max_chakra }

/-- `ActionResult` (`models/action.py`): success flag plus accumulated
messages. -/
structure ActionResult where
  success : Bool
  messages : List String
deriving DecidableEq, Repr

/-- `BattleController._execute_attack` (lines 229-257). -/
def executeAttack (attacker : Character) (target : Option Character) :
    ActionResult × Option Character :=
  match target with
  | none =>
      ({ success := false,
         messages := [s!"{attacker.name}的攻击没有有效目标"] }, none)
  | some t =>
      if !t.is_alive then
        ({ success := false,
           messages := [s!"{attacker.name}的攻击没有有效目标"] }, some t)
      else
        let base_damage := attacker.attack - Int.fdiv t.defense 2
        let damage := max 1 base_damage
        let res := t.take_damage damage
        let msgs := [s!"{attacker.name}攻击了{t.name}，造成了{res.1}点伤害"]
        let msgs := if !res.2.is_alive then msgs ++ [s!"{t.name}被击败了"] else msgs
        ({ success := true, messages := msgs }, some res.2)

/-- `DamageEffect` / `HealingEffect` (`models/skill.py`) as a sum type. -/
inductive SkillEff where
  | damageEff (base_value scaling : Int)
  | healingEff (base_value scaling : Int)
deriving DecidableEq, Repr

/-- `DamageEffect.calculate_damage`: `base_value + attacker_attack * scaling // 100`. -/
def calculate_damage (base_value scaling attacker_attack : Int) : Int :=
  base_value + Int.fdiv (attacker_attack * scaling) 100

/-- `HealingEffect.calculate_healing`: `base_value + caster_stat * scaling // 100`. -/
def calculate_healing (base_value scaling caster_stat : Int) : Int :=
  base_value + Int.fdiv (caster_stat * scaling) 100

/-- The fields of `Skill` (`models/skill.py`) used by `_execute_skill`. -/
structure Skill where
  name : String
  cost : Int
  chakra_cost : Int
  effects : List SkillEff
deriving DecidableEq, Repr

/-- `BattleController._apply_skill_effect` (lines 342-375), threading the
target's state and the result messages. -/
def applySkillEffect (caster : Character) (state : Character × List String)
    (eff : SkillEff) : Character × List String :=
  match eff with
  | SkillEff.damageEff b s =>
      let damage := calculate_damage b s caster.attack
      let res := state.1.take_damage damage
      let msgs := state.2 ++ [s!"{caster.name}的技能对{state.1.name}造成了{res.1}点伤害"]
      let msgs := if !res.2.is_alive then msgs ++ [s!"{state.1.name}被击败了"] else msgs
      (res.2, msgs)
  | SkillEff.healingEff b s =>
      let healing := calculate_healing b s caster.attack
      let res := state.1.heal healing
      (res.2, state.2 ++ [s!"{caster.name}的技能为{state.1.name}恢复了{res.1}点生命值"])

/-- `BattleController._execute_skill` (lines 259-291): fail without a skill
or without a live target (before any mutation); otherwise deduct the cost
(`skill.cost` when positive, else `skill.chakra_cost`) clamped at 0, then
apply the effect list in order.  Returns (result, caster, target). -/
def executeSkill (caster : Character) (skill : Option Skill)
    (target : Option Character) : ActionResult × Character × Option Character :=
  match skill with
  | none =>
      ({ success := false,
         messages := [s!"{caster.name}尝试使用技能，但没有指定技能"] }, caster, target)
  | some sk =>
      match target with
      | none =>
          ({ success := false,
             messages := [s!"{caster.name}的{sk.name}没有有效目标"] }, caster, none)
      | some t =>
          if !t.is_alive then
            ({ success := false,
               messages := [s!"{caster.name}的{sk.name}没有有效目标"] }, caster, some t)
          else
            let cost := if sk.cost > 0 then sk.cost else sk.chakra_cost
            let caster' :=
              if cost > 0 then { caster with chakra := max 0 (caster.chakra - cost) }
              else caster
            let fin := sk.effects.foldl (applySkillEffect caster') (t, [])
            ({ success := true,
               messages := fin.2 ++ [s!"{caster.name}对{t.name}使用了{sk.name}"] },
             caster', some fin.1)

/-- `BattleController.is_battle_over` (lines 421-426). -/
def isBattleOver (s : BattleState) : Bool :=
  let team_a_alive := s.team_a.characters.any (fun c => c.is_alive)
  let team_b_alive := s.team_b.characters.any (fun c => c.is_alive)
  !(team_a_alive && team_b_alive)

/-- `BattleController.get_winning_team` (lines 428-437): `None` while the
battle is running, otherwise team A when it still has a living member, else
team B. -/
def getWinningTeam (s : BattleState) : Option BattleTeam :=
  if !isBattleOver s then none
  else if s.team_a.characters.any (fun c => c.is_alive) then some s.team_a
  else some s.team_b

/-- The alive-character collection of `_calculate_turn_order` (lines 73-79):
team A's living members followed by team B's. -/
def aliveCharacters (s : BattleState) : List Character :=
  (s.team_a.characters ++ s.team_b.characters).filter (fun c => c.is_alive)

/-- The sort key order of `_calculate_turn_order`: descending speed. -/
def speedGE (a b : Character) : Prop := b.speed ≤ a.speed

instance : DecidableRel speedGE :=
  fun a b => inferInstanceAs (Decidable (b.speed ≤ a.speed))

instance : IsTotal Character speedGE :=
  ⟨fun a b => le_total b.speed a.speed⟩

instance : IsTrans Character speedGE :=
  ⟨fun _ _ _ h1 h2 => le_trans h2 h1⟩

/-- Python's `list.sort(key=speed, reverse=True)` is a stable descending
sort; any stable sorting algorithm for the same order produces the same
list, so it is embedded as a stable insertion sort. -/
def sortBySpeedDesc (l : List Character) : List Character :=
  l.insertionSort speedGE

/-- `BattleController._calculate_turn_order` (lines 71-89), parameterised by
the result `shuffled` of `random.shuffle` on the alive-character list: the
shuffled list is stably sorted by descending speed, and the cursor resets
to 0. -/
def calculateTurnOrder (s : BattleState) (shuffled : List Character) : BattleState :=
  { s with turn_order := sortBySpeedDesc shuffled, current_character_index := 0 }

/-- The hp/chakra bounds of the spec invariant, on both hp fields of the
character record. -/
def StatBounds (c : Character) : Prop :=
  0 ≤ c.hp ∧ c.hp ≤ c.max_hp ∧ 0 ≤ c.current_hp ∧ c.current_hp ≤ c.max_hp ∧
  0 ≤ c.chakra ∧ c.chakra ≤ c.max_chakra

instance : DecidablePred StatBounds := fun c => by
  unfold StatBounds; infer_instance

/-- A defeated character, used to evaluate the mutators on the dead branch. -/
def deadChar : Character :=
  { name := "倒下的忍者", hp := 0, max_hp := 100, chakra := 30, max_chakra := 100,
    attack := 10, defense := 10, speed := 10, is_alive := false,
    chakra_regen := 10, current_hp := 0, status_effects := [] }

/-- A living character at 5 hp carrying a damage-over-time effect of value 5
with two rounds remaining. -/
def dotVictim : Character :=
  { name := "中毒者", hp := 5, max_hp := 100, chakra := 50, max_chakra := 100,
    attack := 10, defense := 10, speed := 10, is_alive := true,
    chakra_regen := 10, current_hp := 5, status_effects :=
      [{ name := "poison", effect_type := StatusEffectType.DOT,
         value := 5, duration := 2 }] }

/-- The attacker of the spec's damage-floor scenario: attack 50. -/
def sampleAttacker : Character :=
  { name := "角色一", hp := 100, max_hp := 100, chakra := 100, max_chakra := 100,
    attack := 50, defense := 30, speed := 50, is_alive := true,
    chakra_regen := 10, current_hp := 100, status_effects := [] }

/-- The defender of the spec's damage-floor scenario: defense 30, hp 100. -/
def sampleDefender : Character :=
  { name := "角色二", hp := 100, max_hp := 100, chakra := 100, max_chakra := 100,
    attack := 40, defense := 30, speed := 40, is_alive := true,
    chakra_regen := 10, current_hp := 100, status_effects := [] }

/-- A caster with 100 chakra, within all stat bounds. -/
def sampleCaster : Character :=
  { name := "施法者", hp := 80, max_hp := 100, chakra := 100, max_chakra := 100,
    attack := 30, defense := 20, speed := 40, is_alive := true,
    chakra_regen := 10, current_hp := 80, status_effects :=
      [{ name := "poison", effect_type := StatusEffectType.DOT,
         value := 5, duration := 3 }] }

/-- A caster whose 5 chakra cannot pay a 20-chakra skill. -/
def poorCaster : Character :=
  { name := "缺蓝者", hp := 80, max_hp := 100, chakra := 5, max_chakra := 100,
    attack := 30, defense := 20, speed := 40, is_alive := true,
    chakra_regen := 10, current_hp := 80, status_effects := [] }

/-- A skill costing 20 chakra with one damage effect, as in the test suite. -/
def testSkill : Skill :=
  { name := "测试技能", cost := 20, chakra_cost := 20,
    effects := [SkillEff.damageEff 20 50] }

/-- A battle state in which both teams were wiped simultaneously. -/
def wipeState : BattleState :=
  { team_a := { name := "队伍A", player_id := "p1",
                characters := [{ deadChar with name := "甲" }] },
    team_b := { name := "队伍B", player_id := "p2",
                characters := [{ deadChar with name := "乙" }] },
    current_round := 3, turn_order := [], current_character_index := 0 }

/-- A battle state in which team A is wiped and team B still lives. -/
def teamBWinsState : BattleState :=
  { team_a := { name := "队伍A", player_id := "p1",
                characters := [{ deadChar with name := "甲" }] },
    team_b := { name := "队伍B", player_id := "p2",
                characters := [sampleDefender] },
    current_round := 3, turn_order := [], current_character_index := 0 }

/-- Two living characters with equal speed 40, plus one fast and one dead. -/
def eqSpeedOne : Character :=
  { name := "同速一", hp := 90, max_hp := 100, chakra := 50, max_chakra := 100,
    attack := 20, defense := 20, speed := 40, is_alive := true,
    chakra_regen := 10, current_hp := 90, status_effects := [] }

def eqSpeedTwo : Character :=
  { name := "同速二", hp := 70, max_hp := 100, chakra := 50, max_chakra := 100,
    attack := 25, defense := 15, speed := 40, is_alive := true,
    chakra_regen := 10, current_hp := 70, status_effects := [] }

/-- A battle state with one dead member and three live ones (two of equal
speed), for exercising the turn-order computation. -/
def turnOrderState : BattleState :=
  { team_a := { name := "队伍A", player_id := "p1",
                characters := [eqSpeedOne, deadChar] },
    team_b := { name := "队伍B", player_id := "p2",
                characters := [eqSpeedTwo, sampleAttacker] },
    current_round := 1, turn_order := [], current_character_index := 2 }

/-- A concrete result for `random.shuffle` on `turnOrderState`'s alive list:
the two equal-speed characters swapped, the fast one between them. -/
def turnOrderShuffled : List Character :=
  [eqSpeedTwo, sampleAttacker, eqSpeedOne]

/-- A status effect created with one round remaining. -/
def oneRoundEffect : StatusEffect :=
  { name := "灼烧", effect_type := StatusEffectType.DOT, value := 3, duration := 1 }

/-- A status effect created with two rounds remaining. -/
def twoRoundEffect : StatusEffect :=
  { name := "再生", effect_type := StatusEffectType.HOT, value := 4, duration := 2 }

/-- A character carrying one effect of duration 1 and one of duration 2. -/
def expiryChar : Character :=
  { name := "带状态者", hp := 60, max_hp := 100, chakra := 40, max_chakra := 100,
    attack := 20, defense := 20, speed := 30, is_alive := true,
    chakra_regen := 10, current_hp := 60,
    status_effects := [oneRoundEffect, twoRoundEffect] }

/-! ## Helper lemmas -/

/-- On a living character with non-negative hp, `take_damage` returns the
clamped damage and leaves `hp = current_hp = max 0 (current_hp - amount)`. -/
theorem take_damage_alive_spec (c : Character) (amount : Int)
    (h : c.is_alive = true) (h0 : 0 ≤ c.current_hp) :
    (c.take_damage amount).1 = min c.current_hp amount ∧
    ((c.take_damage amount).2).hp = max 0 (c.current_hp - amount) ∧
    ((c.take_damage amount).2).current_hp = max 0 (c.current_hp - amount) := by
  unfold Character.take_damage
  rw [h]
  simp only [Bool.not_true, Bool.false_eq_true, if_false]
  split_ifs with hc
  · refine ⟨rfl, ?_, ?_⟩ <;>
      · simp only
        rcases le_total c.current_hp amount with hle | hle <;>
          simp [min_def, max_def, hle] at hc ⊢ <;> omega
  · refine ⟨rfl, ?_, ?_⟩ <;>
      · simp only
        rcases le_total c.current_hp amount with hle | hle <;>
          simp [min_def, max_def, hle] at hc ⊢ <;> omega

/-! ## Claim theorems -/

/-- C10: a character whose `is_alive` flag is false is left entirely
unchanged by both `take_damage` and `heal`, and both return 0, for every
non-negative amount. -/
theorem dead_character_mutators_noop (c : Character) (amount : Int)
    (hdead : c.is_alive = false) (hamt : 0 ≤ amount) :
    c.take_damage amount = (0, c) ∧ c.heal amount = (0, c) := by
  unfold Character.take_damage Character.heal
  rw [hdead]
  simp

theorem dead_character_mutators_noop_witness :
    deadChar.take_damage 7 = (0, deadChar) ∧ deadChar.heal 7 = (0, deadChar) :=
  dead_character_mutators_noop deadChar 7 (by decide) (by decide)

/-- C1: the `is_alive ↔ hp > 0` invariant is broken by the round-start
status-effect pass: a living character at 5 hp carrying a DOT of value 5
ends the pass with `hp = 0` yet still `is_alive = true` (the pass writes
`hp` directly and never updates `is_alive`). -/
theorem dot_tick_violates_alive_iff_hp_pos :
    (processTurnBasedEffects dotVictim).hp = 0 ∧
    (processTurnBasedEffects dotVictim).is_alive = true := by
  decide

/-- C3: an ATTACK on a live target succeeds, its damage is
`max 1 (attacker.attack - target.defense // 2)` — at least 1, never zero or
negative — and the target's hp drops by that amount, clamped at 0. -/
theorem attack_damage_formula (attacker t : Character)
    (halive : t.is_alive = true) (hsync : t.hp = t.current_hp)
    (hpos : 0 ≤ t.current_hp) :
    1 ≤ max 1 (attacker.attack - Int.fdiv t.defense 2) ∧
    (executeAttack attacker (some t)).1.success = true ∧
    ∃ t', (executeAttack attacker (some t)).2 = some t' ∧
      t'.hp = max 0 (t.hp - max 1 (attacker.attack - Int.fdiv t.defense 2)) := by
  have hna : (!t.is_alive) = false := by rw [halive]; rfl
  refine ⟨le_max_left _ _, ?_, ?_⟩
  · simp [executeAttack, hna]
  · refine ⟨(t.take_damage (max 1 (attacker.attack - Int.fdiv t.defense 2))).2, ?_, ?_⟩
    · simp [executeAttack, hna]
    · have h := take_damage_alive_spec t
        (max 1 (attacker.attack - Int.fdiv t.defense 2)) halive hpos
      rw [h.2.1, hsync]

/-- `decayEffect` never changes the effect's magnitude. -/
theorem decayEffect_value (e : StatusEffect) : (decayEffect e).value = e.value := by
  unfold decayEffect; split_ifs <;> rfl

/-- Folding DOT/HOT applications with non-negative magnitudes keeps hp
within `[0, m]`. -/
theorem foldl_applyEffectHp_bounds (m : Int) (es : List StatusEffect) :
    ∀ hp : Int, 0 ≤ hp → hp ≤ m → (∀ e ∈ es, 0 ≤ e.value) →
      0 ≤ es.foldl (applyEffectHp m) hp ∧ es.foldl (applyEffectHp m) hp ≤ m := by
  induction es with
  | nil => intro hp h0 h1 _; exact ⟨h0, h1⟩
  | cons e es ih =>
    intro hp h0 h1 hv
    have he : 0 ≤ e.value := hv e (List.mem_cons_self _ _)
    have hstep : 0 ≤ applyEffectHp m hp e ∧ applyEffectHp m hp e ≤ m := by
      rcases e with ⟨n, ty, v, d⟩
      cases ty <;> simp only [applyEffectHp] <;> simp only at he <;> omega
    simp only [List.foldl_cons]
    exact ih (applyEffectHp m hp e) hstep.1 hstep.2
      (fun e' he' => hv e' (List.mem_cons_of_mem _ he'))

theorem attack_damage_formula_witness :
    1 ≤ max 1 (sampleAttacker.attack - Int.fdiv sampleDefender.defense 2) ∧
    (executeAttack sampleAttacker (some sampleDefender)).1.success = true ∧
    ∃ t', (executeAttack sampleAttacker (some sampleDefender)).2 = some t' ∧
      t'.hp = max 0 (sampleDefender.hp -
        max 1 (sampleAttacker.attack - Int.fdiv sampleDefender.defense 2)) :=
  attack_damage_formula sampleAttacker sampleDefender
    (by decide) (by decide) (by decide)

/-- C2: every stat-mutating operation of the battle engine — `take_damage`,
`heal`, the skill-cost deduction of `_execute_skill`, the chakra
regeneration of `_prepare_new_round`, and the DOT/HOT round tick — keeps
`0 ≤ hp ≤ max_hp` and `0 ≤ chakra ≤ max_chakra` when it held before
(damage/heal/effect magnitudes and the regen rate are non-negative in the
engine). -/
theorem engine_ops_preserve_stat_bounds :
    ∀ (c : Character) (amount : Int) (sk : Skill) (target : Option Character),
      (StatBounds c → 0 ≤ amount → StatBounds (c.take_damage amount).2) ∧
      (StatBounds c → 0 ≤ amount → StatBounds (c.heal amount).2) ∧
      (StatBounds c → 0 ≤ c.chakra_regen → StatBounds (regenChakra c)) ∧
      (StatBounds c → (∀ e ∈ c.status_effects, 0 ≤ e.value) →
          StatBounds (processTurnBasedEffects c)) ∧
      (StatBounds c → StatBounds (executeSkill c (some sk) target).2.1) := by
  intro c amount sk target
  refine ⟨?_, ?_, ?_, ?_, ?_⟩
  · intro hB hA
    unfold Character.take_damage
    cases hbool : c.is_alive with
    | false => simpa [hbool] using hB
    | true =>
      simp only [hbool, Bool.not_true, Bool.false_eq_true, if_false]
      unfold StatBounds at hB ⊢
      split_ifs with hc <;> simp only <;> omega
  · intro hB hA
    unfold Character.heal
    cases hbool : c.is_alive with
    | false => simpa [hbool] using hB
    | true =>
      simp only [hbool, Bool.not_true, Bool.false_eq_true, if_false]
      unfold StatBounds at hB ⊢
      simp only
      omega
  · intro hB hR
    unfold regenChakra
    unfold StatBounds at hB ⊢
    simp only
    omega
  · intro hB hv
    have hvals : ∀ e ∈ c.status_effects.map decayEffect, 0 ≤ e.value := by
      intro e he
      rcases List.mem_map.mp he with ⟨x, hx, rfl⟩
      rw [decayEffect_value]
      exact hv x hx
    have hfold := foldl_applyEffectHp_bounds c.max_hp (c.status_effects.map decayEffect)
      c.hp hB.1 hB.2.1 hvals
    unfold processTurnBasedEffects
    unfold StatBounds at hB ⊢
    simp only
    exact ⟨hfold.1, hfold.2, hB.2.2.1, hB.2.2.2.1, hB.2.2.2.2.1, hB.2.2.2.2.2⟩
  · intro hB
    cases target with
    | none => simpa only [executeSkill] using hB
    | some t =>
      cases htb : t.is_alive with
      | false => simp only [executeSkill, htb]; simpa using hB
      | true =>
        simp only [executeSkill, htb, Bool.not_true, Bool.false_eq_true, if_false]
        split_ifs <;>
          first
            | exact hB
            | (unfold StatBounds at hB ⊢; simp only; omega)

theorem engine_ops_preserve_stat_bounds_witness :
    StatBounds (sampleCaster.take_damage 30).2 ∧
    StatBounds (sampleCaster.heal 30).2 ∧
    StatBounds (regenChakra sampleCaster) ∧
    StatBounds (processTurnBasedEffects sampleCaster) ∧
    StatBounds (executeSkill sampleCaster (some testSkill) (some sampleDefender)).2.1 := by
  have h := engine_ops_preserve_stat_bounds sampleCaster 30 testSkill (some sampleDefender)
  exact ⟨h.1 (by decide) (by decide), h.2.1 (by decide) (by decide),
         h.2.2.1 (by decide) (by decide), h.2.2.2.1 (by decide) (by decide),
         h.2.2.2.2 (by decide)⟩

/-- C4 counterexample: on a simultaneous wipe the battle is over, yet
`get_winning_team` does return a winner object — team B — because it only
tests whether team A still has a living member. -/
theorem simultaneous_wipe_counterexample :
    isBattleOver wipeState = true ∧ getWinningTeam wipeState ≠ none := by
  decide

/-- C4 amended: if every member of both teams is not-alive, the battle is
over and `get_winning_team` returns team B (not a draw with no winner). -/
theorem simultaneous_wipe_returns_team_b (s : BattleState)
    (ha : ∀ c ∈ s.team_a.characters, c.is_alive = false)
    (hb : ∀ c ∈ s.team_b.characters, c.is_alive = false) :
    isBattleOver s = true ∧ getWinningTeam s = some s.team_b := by
  have hA : s.team_a.characters.any (fun c => c.is_alive) = false :=
    List.any_eq_false.mpr (fun x hx => by simp [ha x hx])
  have hB : s.team_b.characters.any (fun c => c.is_alive) = false :=
    List.any_eq_false.mpr (fun x hx => by simp [hb x hx])
  constructor
  · simp [isBattleOver, hA, hB]
  · simp [getWinningTeam, isBattleOver, hA, hB]

theorem simultaneous_wipe_returns_team_b_witness :
    isBattleOver wipeState = true ∧
    getWinningTeam wipeState = some wipeState.team_b :=
  simultaneous_wipe_returns_team_b wipeState (by decide) (by decide)

/-- C5: a SKILL action with a positive-cost skill and a live target succeeds
and leaves the caster's chakra at `max 0 (chakra - cost)`; without a valid
live target it fails and changes nothing (caster and target returned
unchanged). -/
theorem skill_cost_deduction_and_atomic_failure
    (caster : Character) (sk : Skill) (t : Character)
    (halive : t.is_alive = true) (hcost : 0 < sk.cost) :
    ((executeSkill caster (some sk) (some t)).1.success = true ∧
      (executeSkill caster (some sk) (some t)).2.1.chakra =
        max 0 (caster.chakra - sk.cost)) ∧
    ((executeSkill caster (some sk) none).1.success = false ∧
      (executeSkill caster (some sk) none).2.1 = caster ∧
      (executeSkill caster (some sk) none).2.2 = none) ∧
    (∀ u : Character, u.is_alive = false →
      (executeSkill caster (some sk) (some u)).1.success = false ∧
      (executeSkill caster (some sk) (some u)).2.1 = caster ∧
      (executeSkill caster (some sk) (some u)).2.2 = some u) := by
  refine ⟨⟨?_, ?_⟩, ⟨?_, ?_, ?_⟩, ?_⟩
  · simp [executeSkill, halive]
  · simp [executeSkill, halive, hcost]
  · simp [executeSkill]
  · simp [executeSkill]
  · simp [executeSkill]
  · intro u hu
    refine ⟨?_, ?_, ?_⟩ <;> simp [executeSkill, hu]

theorem skill_cost_deduction_witness :
    (executeSkill sampleCaster (some testSkill) (some sampleDefender)).1.success = true ∧
    (executeSkill sampleCaster (some testSkill) (some sampleDefender)).2.1.chakra = 80 ∧
    (executeSkill sampleCaster (some testSkill) none).1.success = false ∧
    (executeSkill sampleCaster (some testSkill) none).2.1 = sampleCaster := by
  have h := skill_cost_deduction_and_atomic_failure sampleCaster testSkill sampleDefender
    (by decide) (by decide)
  refine ⟨h.1.1, ?_, h.2.1.1, h.2.1.2.1⟩
  rw [h.1.2]
  decide

/-- C6: after one round-start pass, an effect that had 1 round remaining is
gone from the character's effect list, and an effect that had 2 rounds
remaining survives with 1 remaining. -/
theorem status_effect_expiry (c : Character) (e : StatusEffect)
    (hmem : e ∈ c.status_effects) :
    (e.duration = 1 → decayEffect e ∉ (processTurnBasedEffects c).status_effects) ∧
    (e.duration = 2 → { e with duration := 1 } ∈ (processTurnBasedEffects c).status_effects) := by
  constructor
  · intro h1 hcon
    have hd : (decayEffect e).duration = 0 := by
      unfold decayEffect
      rw [h1]
      norm_num
    unfold processTurnBasedEffects at hcon
    simp only [List.mem_filter] at hcon
    rw [hd] at hcon
    simp at hcon
  · intro h2
    have hd : decayEffect e = { e with duration := 1 } := by
      unfold decayEffect
      rw [h2]
      norm_num
    unfold processTurnBasedEffects
    simp only [List.mem_filter]
    refine ⟨?_, by simp⟩
    rw [← hd]
    exact List.mem_map_of_mem decayEffect hmem

theorem status_effect_expiry_witness :
    decayEffect oneRoundEffect ∉ (processTurnBasedEffects expiryChar).status_effects ∧
    { twoRoundEffect with duration := 1 } ∈ (processTurnBasedEffects expiryChar).status_effects :=
  ⟨(status_effect_expiry expiryChar oneRoundEffect (by decide)).1 (by decide),
   (status_effect_expiry expiryChar twoRoundEffect (by decide)).2 (by decide)⟩

/-- C7 counterexample: a caster with 5 chakra resolves a 20-cost skill with
`success = true` — insufficient chakra is not rejected. -/
theorem insufficient_chakra_counterexample :
    poorCaster.chakra < testSkill.cost ∧
    (executeSkill poorCaster (some testSkill) (some sampleDefender)).1.success = true := by
  decide

/-- C7 amended: `_execute_skill` never checks chakra sufficiency — with a
live target, a caster whose chakra is below the skill's (positive) cost
still succeeds, and the chakra is clamped to 0. -/
theorem insufficient_chakra_skill_succeeds
    (caster : Character) (sk : Skill) (t : Character)
    (halive : t.is_alive = true) (hcost : 0 < sk.cost)
    (hlt : caster.chakra < sk.cost) (hnn : 0 ≤ caster.chakra) :
    (executeSkill caster (some sk) (some t)).1.success = true ∧
    (executeSkill caster (some sk) (some t)).2.1.chakra = 0 := by
  constructor
  · simp [executeSkill, halive]
  · have hc : (executeSkill caster (some sk) (some t)).2.1.chakra =
        max 0 (caster.chakra - sk.cost) := by
      simp [executeSkill, halive, hcost]
    rw [hc]
    omega

theorem insufficient_chakra_skill_succeeds_witness :
    (executeSkill poorCaster (some testSkill) (some sampleDefender)).1.success = true ∧
    (executeSkill poorCaster (some testSkill) (some sampleDefender)).2.1.chakra = 0 :=
  insufficient_chakra_skill_succeeds poorCaster testSkill sampleDefender
    (by decide) (by decide) (by decide) (by decide)

/-- C8: when team A is wiped (every member at hp 0 and not-alive) and team B
still has a living member with positive hp, the battle is over and
`get_winning_team` returns team B. -/
theorem team_a_wiped_team_b_wins (s : BattleState)
    (ha : ∀ c ∈ s.team_a.characters, c.hp = 0 ∧ c.is_alive = false)
    (hb : ∃ c ∈ s.team_b.characters, 0 < c.hp ∧ c.is_alive = true) :
    isBattleOver s = true ∧ getWinningTeam s = some s.team_b := by
  have hA : s.team_a.characters.any (fun c => c.is_alive) = false :=
    List.any_eq_false.mpr (fun x hx => by simp [(ha x hx).2])
  have hB : s.team_b.characters.any (fun c => c.is_alive) = true := by
    rcases hb with ⟨x, hx, _, hal⟩
    exact List.any_eq_true.mpr ⟨x, hx, by simp [hal]⟩
  constructor
  · simp [isBattleOver, hA, hB]
  · simp [getWinningTeam, isBattleOver, hA, hB]

theorem team_a_wiped_team_b_wins_witness :
    isBattleOver teamBWinsState = true ∧
    getWinningTeam teamBWinsState = some teamBWinsState.team_b :=
  team_a_wiped_team_b_wins teamBWinsState (by decide)
    ⟨sampleDefender, by decide, by decide⟩

/-- C9: after round preparation the turn order is a permutation of exactly
the alive characters of both teams (every entry alive, no duplicates when
the alive list has none), sorted in non-increasing speed; equal-speed
characters keep the relative order the random shuffle gave them (so ties
are decided solely by the shuffle, hence reproducible under a fixed seed);
and the current-actor cursor is reset to 0. -/
theorem turn_order_properties (s : BattleState) (shuffled : List Character)
    (hperm : shuffled.Perm (aliveCharacters s)) :
    (calculateTurnOrder s shuffled).turn_order.Perm (aliveCharacters s) ∧
    (∀ c ∈ (calculateTurnOrder s shuffled).turn_order, c.is_alive = true) ∧
    ((aliveCharacters s).Nodup → (calculateTurnOrder s shuffled).turn_order.Nodup) ∧
    (calculateTurnOrder s shuffled).turn_order.Sorted speedGE ∧
    (∀ a b : Character, a.speed = b.speed → [a, b].Sublist shuffled →
        [a, b].Sublist (calculateTurnOrder s shuffled).turn_order) ∧
    (calculateTurnOrder s shuffled).current_character_index = 0 := by
  have hperm2 : (sortBySpeedDesc shuffled).Perm (aliveCharacters s) :=
    (List.perm_insertionSort speedGE shuffled).trans hperm
  refine ⟨hperm2, ?_, ?_, ?_, ?_, rfl⟩
  · intro c hc
    have hmem : c ∈ aliveCharacters s := hperm2.mem_iff.mp hc
    exact (List.mem_filter.mp hmem).2
  · intro hnd
    exact hperm2.nodup_iff.mpr hnd
  · exact List.sorted_insertionSort speedGE shuffled
  · intro a b hsp hsub
    exact List.pair_sublist_insertionSort (le_of_eq hsp.symm) hsub

theorem turn_order_properties_witness :
    (calculateTurnOrder turnOrderState turnOrderShuffled).turn_order.Perm
      (aliveCharacters turnOrderState) ∧
    (calculateTurnOrder turnOrderState turnOrderShuffled).turn_order.Nodup ∧
    (calculateTurnOrder turnOrderState turnOrderShuffled).turn_order.Sorted speedGE ∧
    [eqSpeedTwo, eqSpeedOne].Sublist
      (calculateTurnOrder turnOrderState turnOrderShuffled).turn_order ∧
    (calculateTurnOrder turnOrderState turnOrderShuffled).current_character_index = 0 := by
  have h := turn_order_properties turnOrderState turnOrderShuffled (by decide)
  exact ⟨h.1, h.2.2.1 (by decide), h.2.2.2.1,
         h.2.2.2.2.1 eqSpeedTwo eqSpeedOne (by decide) (by decide),
         h.2.2.2.2.2⟩

end Naruto
